import Mathlib

/-!
Verification of the segment scheduler and transfer engine of the
Project5296 client tool (Go sources: `resources.go`, the downloader and
dispatcher in the main package).  The Go code is shallowly embedded:
`uint64` fields become `Nat` with explicit wrap-around (`% 2^64`) at the
operations where Go arithmetic can overflow or underflow, mutation
becomes functional state passing, and functions that `panic` on a broken
precondition return `Option`.
-/

namespace Project5296

/-! ## Machine arithmetic (`uint64`) -/

/-- The modulus of Go's `uint64` arithmetic, `2^64`. -/
def U64 : Nat := 18446744073709551616

/-- Go `uint64` addition `a + b` (wraps modulo `2^64`). -/
def add64 (a b : Nat) : Nat := (a + b) % U64

/-- Go `uint64` subtraction `a - b` (wraps modulo `2^64`). -/
def sub64 (a b : Nat) : Nat := (a + (U64 - b % U64)) % U64

/-! ## Data model (`resources.go`)

`ResourceStatus` doubles as the status of a resource and of a segment,
exactly as in the source. -/

inductive ResourceStatus where
  | PENDING
  | DOWNLOADING
  | DOWNLOADED
  | DOWNLOAD_FAILED
deriving DecidableEq, Repr

open ResourceStatus

/-- One contiguous byte interval of a resource
(`type ResourceSegment struct` in `resources.go`); the back pointer to
the owning resource is dropped, resource-level effects are modelled on
`Resource` below.  `from` is a Lean keyword, hence the field `from_`. -/
structure ResourceSegment where
  from_ : Nat
  to_ : Nat
  ttl : Nat
  status : ResourceStatus
  ack : Nat
deriving DecidableEq, Repr

/-- One remote file (`type Resource struct` in `resources.go`); the url,
destination path and file descriptor play no part in the claims. -/
structure Resource where
  contentLength : Nat
  isAcceptRange : Bool
  _segments : List ResourceSegment
  _writtenSegments : List ResourceSegment
deriving DecidableEq, Repr

/-! ## `Resource.SliceSegments`

The Go loop is

```
for idx := uint64(0); idx < r.contentLength; {
    maxChunkSize := min(r.contentLength, idx+chunkSize)
    segment := ResourceSegment{resource: r, from: idx, to: maxChunkSize, ttl: 3, status: PENDING}
    segments = append(segments, &segment)
    idx += maxChunkSize
}
```

The recursion is written with fuel because the Go loop has no structural
bound; for `chunkSize > 0` every iteration increases `idx` by
`maxChunkSize ≥ idx + 1 ≥ 1`, so `contentLength` iterations always
suffice and the fuel is never exhausted on the inputs of interest. -/

def sliceLoop (fuel cl chunkSize idx : Nat) : List ResourceSegment :=
  match fuel with
  | 0 => []
  | fuel + 1 =>
    if idx < cl then
      let maxChunkSize := min cl (idx + chunkSize)
      { from_ := idx, to_ := maxChunkSize, ttl := 3, status := PENDING, ack := 0 }
        :: sliceLoop fuel cl chunkSize (idx + maxChunkSize)
    else []

def Resource.SliceSegments (r : Resource) (chunkSize : Nat) : List ResourceSegment :=
  if r.isAcceptRange then
    sliceLoop r.contentLength r.contentLength chunkSize 0
  else
    [{ from_ := 0, to_ := r.contentLength, ttl := 3, status := PENDING, ack := 0 }]

/-- The resource built by `ToResources` for an available request, before
slicing (`_segments` is filled by `SliceSegments`). -/
def mkResource (contentLength : Nat) (isAcceptRange : Bool) : Resource :=
  { contentLength := contentLength, isAcceptRange := isAcceptRange,
    _segments := [], _writtenSegments := [] }

/-- The half-open byte interval `[from, to)` of a segment. -/
def segCovers (s : ResourceSegment) (x : Nat) : Prop :=
  s.from_ ≤ x ∧ x < s.to_

instance (s : ResourceSegment) (x : Nat) : Decidable (segCovers s x) := by
  unfold segCovers; infer_instance

/-! ## Segment lifecycle operations (`resources.go`)

Each Go method panics when its precondition is broken; the embedding
returns `none` there.  (`OpenFile`/`CloseFile` touch the filesystem and
are out of the model; their error paths do not change segment state.) -/

/-- Source `func (rs *ResourceSegment) StartDownload()`. -/
def ResourceSegment.StartDownload (rs : ResourceSegment) : Option ResourceSegment :=
  if rs.status ≠ PENDING then none
  else if rs.ttl = 0 then none
  else some { rs with status := DOWNLOADING }

/-- Source `func (rs *ResourceSegment) CancelDownload()`. -/
def ResourceSegment.CancelDownload (rs : ResourceSegment) : Option ResourceSegment :=
  if rs.status ≠ DOWNLOADING then none
  else if rs.ttl = 0 then none
  else
    let ttl := rs.ttl - 1
    some { rs with ttl := ttl,
                   status := if ttl = 0 then DOWNLOAD_FAILED else PENDING }

/-- Source `func (rs *ResourceSegment) FinishDownload()`, segment-local part
(the resource-level bookkeeping is `Resource.finishSegmentAt` below). -/
def ResourceSegment.FinishDownload (rs : ResourceSegment) : Option ResourceSegment :=
  if rs.status ≠ DOWNLOADING then none
  else some { rs with status := DOWNLOADED }

/-- Source `func (firstHalf *ResourceSegment) Split() *ResourceSegment`,
segment-local part: returns the truncated first half and the fresh
second half.  The Go method performs no status check and the struct
literal for the second half leaves `ack` at its zero value. -/
def ResourceSegment.Split (firstHalf : ResourceSegment) :
    ResourceSegment × ResourceSegment :=
  let middle := add64 firstHalf.from_ (sub64 firstHalf.to_ firstHalf.from_ / 2)
  let secondHalf : ResourceSegment :=
    { from_ := middle, to_ := firstHalf.to_, ttl := 3, status := PENDING, ack := 0 }
  ({ firstHalf with to_ := middle }, secondHalf)

/-- Resource-level effect of `Split`: the Go list `r._segments` holds a
pointer to `firstHalf`, so truncation mutates it in place, and
`append(r._segments, &secondHalf)` appends the sibling at the end.  The
segment being split sits at position `i` of the active list. -/
def Resource.splitSegmentAt (r : Resource) (i : Nat) : Resource :=
  match r._segments.get? i with
  | none => r
  | some firstHalf =>
    let p := firstHalf.Split
    { r with _segments := r._segments.set i p.1 ++ [p.2] }

/-- Resource-level effect of `FinishDownload`: the finished segment is
removed from `_segments` (first match wins) and appended to
`_writtenSegments`. -/
def Resource.finishSegmentAt (r : Resource) (i : Nat) : Option Resource :=
  match r._segments.get? i with
  | none => none
  | some rs =>
    match rs.FinishDownload with
    | none => none
    | some rs2 =>
      some { r with _segments := r._segments.eraseIdx i,
                    _writtenSegments := r._writtenSegments ++ [rs2] }

/-! ## Lifecycle traces for the segment invariants (claim `C5`) -/

inductive SegOp where
  | start
  | cancel
  | finish
  | split
deriving DecidableEq, Repr

/-- One lifecycle operation applied to a single segment (for `split`,
the segment under consideration is the original first half). -/
def segStep (s : ResourceSegment) : SegOp → Option ResourceSegment
  | .start => s.StartDownload
  | .cancel => s.CancelDownload
  | .finish => s.FinishDownload
  | .split => some s.Split.1

/-- A sequence of lifecycle operations; `none` as soon as one panics. -/
def runSegOps (s : ResourceSegment) : List SegOp → Option ResourceSegment
  | [] => some s
  | op :: ops =>
    match segStep s op with
    | none => none
    | some s2 => runSegOps s2 ops

/-- The segment state created by `SliceSegments` (and by the second half
of `Split`): `ttl = 3`, `status = PENDING`, `ack = 0`. -/
def initSeg (from_ to_ : Nat) : ResourceSegment :=
  { from_ := from_, to_ := to_, ttl := 3, status := PENDING, ack := 0 }

/-- The state-machine invariant of claim `C5`, preserved by every step. -/
def segInv (s : ResourceSegment) : Prop :=
  s.status = DOWNLOAD_FAILED → s.ttl = 0

/-! ## `Resource.Status` (claims `C4` and `C8`)

The Go method scans `r._segments` with two accumulator flags and an
early return:

```
isAllPending := true
isAllDownloaded := true
for _, seg := range r._segments {
    if seg.status != PENDING { isAllPending = false }
    if seg.status == DOWNLOADING { return DOWNLOADING }
    if seg.status != DOWNLOADED { isAllDownloaded = false }
}
if isAllPending && !isAllDownloaded { return PENDING }
if isAllDownloaded && !isAllPending { return DOWNLOADED }
return DOWNLOAD_FAILED
```

(The update of `isAllDownloaded` is written after the early return; on
the returning iteration the flag values are discarded, so updating both
flags before the recursive call is the same function.) -/

def statusLoop : List ResourceSegment → Bool → Bool → ResourceStatus
  | [], isAllPending, isAllDownloaded =>
    if isAllPending && !isAllDownloaded then PENDING
    else if isAllDownloaded && !isAllPending then DOWNLOADED
    else DOWNLOAD_FAILED
  | seg :: rest, isAllPending, isAllDownloaded =>
    if seg.status = DOWNLOADING then DOWNLOADING
    else
      statusLoop rest
        (if seg.status ≠ PENDING then false else isAllPending)
        (if seg.status ≠ DOWNLOADED then false else isAllDownloaded)

/-- Source `func (r *Resource) Status() ResourceStatus`. -/
def Resource.Status (r : Resource) : ResourceStatus :=
  statusLoop r._segments true true

/-- A resource mixing a `PENDING` and a `DOWNLOADED` segment, with no
`DOWNLOADING` segment. -/
def mixedResource : Resource :=
  { contentLength := 200, isAcceptRange := true,
    _segments := [initSeg 0 100, { (initSeg 100 200) with status := DOWNLOADED }],
    _writtenSegments := [] }

/-! ## `Downloader.Download` (claims `C2`, `C7`, `C10`)

The fetch protocol, from the main package:

```
seg.StartDownload()
req, err := http.NewRequest("GET", seg.resource.url, nil)
req.Header.Add("Range", "bytes="+fmt.Sprint(seg.from)+"-"+fmt.Sprint(seg.to-2))
resp, err := dwn.client.Do(req, 0)
if err != nil { seg.CancelDownload(); return CLIENT_RETURNED_ERROR }
if resp.StatusCode != 200 && resp.StatusCode != 206 {
    seg.CancelDownload(); return STATUS_CODE_NOT_2XX }
seg.ack = seg.from
for {
    n, err := resp.Body.Read(buf)
    if n > 0 { seg.WriteAt(buf[:n], int64(seg.ack)); seg.ack += uint64(n) }
    if seg.ack >= seg.to { seg.FinishDownload(); return READ_SUCCESS }
    if err == io.EOF { seg.FinishDownload(); return READ_SUCCESS }
    if err != nil { seg.CancelDownload(); return READER_RETURNED_ERROR }
}
```

The HTTP client and the body stream are the environment of the call and
enter the model as explicit input data. -/

inductive DownloadResult where
  | CLIENT_RETURNED_ERROR
  | STATUS_CODE_NOT_2XX
  | READER_RETURNED_ERROR
  | READ_SUCCESS
deriving DecidableEq, Repr

/-- The error half of one `resp.Body.Read(buf)` outcome: `nil`,
`io.EOF`, or any other error. -/
inductive ReadErr where
  | noErr
  | eofErr
  | otherErr
deriving DecidableEq, Repr

/-- Environment of one `Download` call: whether `client.Do` returned an
error, the HTTP status code otherwise, and the successive
`(n, err)` results of `resp.Body.Read`.  Reading past the end of the
list models a drained `io.Reader` returning `(0, io.EOF)`. -/
structure DownloadInput where
  clientError : Bool
  statusCode : Nat
  body : List (Nat × ReadErr)
deriving DecidableEq, Repr

inductive LoopExit where
  | ackReached
  | eofStream
  | readErr
deriving DecidableEq, Repr

/-- The streaming loop: each iteration reads `(n, err)`, advances
`ack += n` (the `n > 0` guard only skips a no-op write), then checks in
source order `ack >= to`, `err == io.EOF`, `err != nil`.  Returns the
final `ack` and the reason the loop ended. -/
def downloadLoop (to_ ack : Nat) : List (Nat × ReadErr) → Nat × LoopExit
  | [] =>
    if to_ ≤ ack then (ack, .ackReached) else (ack, .eofStream)
  | (n, e) :: rest =>
    let ack2 := add64 ack n
    if to_ ≤ ack2 then (ack2, .ackReached)
    else
      match e with
      | .eofErr => (ack2, .eofStream)
      | .otherErr => (ack2, .readErr)
      | .noErr => downloadLoop to_ ack2 rest

/-- The Range header value built by `Download`:
`"bytes=" + fmt.Sprint(seg.from) + "-" + fmt.Sprint(seg.to-2)` with
`uint64` subtraction. -/
def rangeHeaderValue (from_ to_ : Nat) : String :=
  "bytes=" ++ toString from_ ++ "-" ++ toString (sub64 to_ 2)

/-- The header list of the GET request: `http.NewRequest` starts with no
headers and exactly one `Header.Add("Range", …)` call follows. -/
def downloadRequestHeaders (seg : ResourceSegment) : List (String × String) :=
  [("Range", rangeHeaderValue seg.from_ seg.to_)]

/-- The lifecycle methods `Download` can invoke on its segment, in
order of invocation. -/
inductive LifeCall where
  | start
  | cancel
  | finish
deriving DecidableEq, Repr

/-- Final state of a `CancelDownload` on a `DOWNLOADING` segment with
positive `ttl`. -/
def cancelledState (s : ResourceSegment) : ResourceSegment :=
  { s with ttl := s.ttl - 1,
           status := if s.ttl - 1 = 0 then DOWNLOAD_FAILED else PENDING }

/-- Source `func (dwn *Downloader) Download(seg *ResourceSegment) DownloadResult`,
additionally returning the final segment state and the sequence of
lifecycle methods invoked; `none` when a lifecycle precondition panics. -/
def Downloader.Download (seg : ResourceSegment) (input : DownloadInput) :
    Option (DownloadResult × ResourceSegment × List LifeCall) :=
  match seg.StartDownload with
  | none => none
  | some s1 =>
    if input.clientError then
      match s1.CancelDownload with
      | none => none
      | some s2 => some (.CLIENT_RETURNED_ERROR, s2, [.start, .cancel])
    else if input.statusCode ≠ 200 ∧ input.statusCode ≠ 206 then
      match s1.CancelDownload with
      | none => none
      | some s2 => some (.STATUS_CODE_NOT_2XX, s2, [.start, .cancel])
    else
      match (downloadLoop s1.to_ s1.from_ input.body).2 with
      | .ackReached =>
        match ({ s1 with ack := (downloadLoop s1.to_ s1.from_ input.body).1 }).FinishDownload with
        | none => none
        | some s4 => some (.READ_SUCCESS, s4, [.start, .finish])
      | .eofStream =>
        match ({ s1 with ack := (downloadLoop s1.to_ s1.from_ input.body).1 }).FinishDownload with
        | none => none
        | some s4 => some (.READ_SUCCESS, s4, [.start, .finish])
      | .readErr =>
        match ({ s1 with ack := (downloadLoop s1.to_ s1.from_ input.body).1 }).CancelDownload with
        | none => none
        | some s4 => some (.READER_RETURNED_ERROR, s4, [.start, .cancel])

/-! ## The dispatcher's completion handler (claim `C3`)

```
result := dwn.Download(seg)
waitingSplitSegList.Remove(seg)
if result == READ_SUCCESS {
    // log
} else {
    if seg.ttl > 0 { pendingSegQueue <- seg } else { /* log */ }
}
downloaderQueue <- dwn
```
-/

inductive QueueOp where
  | requeueSegment
  | returnWorker
deriving DecidableEq, Repr

/-- The queue operations the completion handler emits, in program
order. -/
def dispatchOnComplete (result : DownloadResult) (ttl : Nat) : List QueueOp :=
  (if result = .READ_SUCCESS then []
   else if 0 < ttl then [.requeueSegment] else []) ++ [.returnWorker]

/-- Concrete inputs for the `Download` witnesses: the fresh segment
`[0, 5)` and a 206 response streaming ten bytes at once. -/
def sampleSeg : ResourceSegment := initSeg 0 5

def sampleInput : DownloadInput :=
  { clientError := false, statusCode := 206, body := [(10, ReadErr.noErr)] }

def sampleFinal : ResourceSegment :=
  { from_ := 0, to_ := 5, ttl := 3, status := DOWNLOADED, ack := 10 }

theorem U64_pos : 0 < U64 := by decide

/-- For in-range operands with `b ≤ a`, Go subtraction is plain subtraction. -/
theorem sub64_eq_sub (a b : Nat) (ha : a < U64) (hba : b ≤ a) :
    sub64 a b = a - b := by
  have hb : b < U64 := lt_of_le_of_lt hba ha
  have hbmod : b % U64 = b := Nat.mod_eq_of_lt hb
  unfold sub64
  rw [hbmod]
  have h1 : a + (U64 - b) = (a - b) + U64 := by omega
  rw [h1, Nat.add_mod_right]
  exact Nat.mod_eq_of_lt (by omega)

/-- For in-range operands with `a < b`, Go subtraction wraps. -/
theorem sub64_eq_wrap (a b : Nat) (hb : b < U64) (hab : a < b) :
    sub64 a b = a + U64 - b := by
  have hbmod : b % U64 = b := Nat.mod_eq_of_lt hb
  unfold sub64
  rw [hbmod]
  have h1 : a + (U64 - b) = a + U64 - b := by omega
  rw [h1]
  exact Nat.mod_eq_of_lt (by omega)

theorem segStep_ttl_mono (s : ResourceSegment) (op : SegOp) (s2 : ResourceSegment)
    (h : segStep s op = some s2) : s2.ttl ≤ s.ttl := by
  cases op with
  | start =>
    simp only [segStep, ResourceSegment.StartDownload] at h
    split at h
    · exact absurd h (by simp)
    · split at h
      · exact absurd h (by simp)
      · cases h; exact Nat.le_refl _
  | cancel =>
    simp only [segStep, ResourceSegment.CancelDownload] at h
    split at h
    · exact absurd h (by simp)
    · split at h
      · exact absurd h (by simp)
      · cases h; exact Nat.sub_le _ _
  | finish =>
    simp only [segStep, ResourceSegment.FinishDownload] at h
    split at h
    · exact absurd h (by simp)
    · cases h; exact Nat.le_refl _
  | split =>
    simp only [segStep] at h
    cases h; exact Nat.le_refl _

theorem segStep_preserves_inv (s : ResourceSegment) (op : SegOp)
    (s2 : ResourceSegment) (hinv : segInv s) (h : segStep s op = some s2) :
    segInv s2 := by
  cases op <;>
    simp only [segStep, ResourceSegment.StartDownload, ResourceSegment.CancelDownload,
      ResourceSegment.FinishDownload, ResourceSegment.Split] at h
  · split at h
    · exact absurd h (by simp)
    · split at h
      · exact absurd h (by simp)
      · cases h; intro hst; simp at hst
  · split at h
    · exact absurd h (by simp)
    · split at h
      · exact absurd h (by simp)
      · cases h
        intro hst
        simp only [segInv] at hst ⊢
        by_cases hz : s.ttl - 1 = 0
        · exact hz
        · simp [hz] at hst
  · split at h
    · exact absurd h (by simp)
    · cases h; intro hst; simp at hst
  · cases h
    intro hst
    exact hinv hst

theorem runSegOps_inv (ops : List SegOp) (s s2 : ResourceSegment)
    (hinv : segInv s) (h : runSegOps s ops = some s2) : segInv s2 := by
  induction ops generalizing s with
  | nil => simp only [runSegOps] at h; cases h; exact hinv
  | cons op ops ih =>
    simp only [runSegOps] at h
    cases hstep : segStep s op with
    | none => rw [hstep] at h; cases h
    | some s1 =>
      rw [hstep] at h
      exact ih s1 (segStep_preserves_inv s op s1 hinv hstep) h

theorem runSegOps_ttl_le (ops : List SegOp) (s s2 : ResourceSegment)
    (h : runSegOps s ops = some s2) : s2.ttl ≤ s.ttl := by
  induction ops generalizing s with
  | nil => simp only [runSegOps] at h; cases h; exact Nat.le_refl _
  | cons op ops ih =>
    simp only [runSegOps] at h
    cases hstep : segStep s op with
    | none => rw [hstep] at h; cases h
    | some s1 =>
      rw [hstep] at h
      exact Nat.le_trans (ih s1 h) (segStep_ttl_mono s op s1 hstep)

/-- Claim `C5`: along every legal lifecycle trace from a freshly sliced
segment, `ttl` never increases (stepwise and hence globally, starting
from the initial budget 3), `DOWNLOAD_FAILED` implies `ttl = 0`, a
successful `CancelDownload` presupposes `DOWNLOADING` status and
positive `ttl`, decrements `ttl` by exactly one, and leaves the segment
`DOWNLOAD_FAILED` exactly when the budget ran out and `PENDING`
otherwise. -/
theorem segment_lifecycle_invariants (f t : Nat) (ops : List SegOp)
    (s : ResourceSegment) (h : runSegOps (initSeg f t) ops = some s) :
    s.ttl ≤ 3 ∧
    (s.status = DOWNLOAD_FAILED → s.ttl = 0) ∧
    (∀ op s2, segStep s op = some s2 → s2.ttl ≤ s.ttl) ∧
    (∀ s2, s.CancelDownload = some s2 →
      s.status = DOWNLOADING ∧ 0 < s.ttl ∧ s2.ttl + 1 = s.ttl ∧
      s2.status = (if s2.ttl = 0 then DOWNLOAD_FAILED else PENDING)) := by
  refine ⟨runSegOps_ttl_le ops _ s h, runSegOps_inv ops _ s ?_ h,
    fun op s2 h2 => segStep_ttl_mono s op s2 h2, fun s2 h2 => ?_⟩
  · intro hst; simp [initSeg] at hst
  · simp only [ResourceSegment.CancelDownload] at h2
    split at h2
    · exact absurd h2 (by simp)
    · rename_i hst
      split at h2
      · exact absurd h2 (by simp)
      · rename_i httl
        cases h2
        push_neg at hst
        refine ⟨hst, Nat.pos_of_ne_zero httl, ?_, rfl⟩
        show s.ttl - 1 + 1 = s.ttl
        omega

/-- Witness for `C5` at a concrete trace: start then cancel from the
fresh segment `[0, 1000)` lands in `PENDING` with `ttl = 2`. -/
theorem segment_lifecycle_invariants_witness :
    (({ from_ := 0, to_ := 1000, ttl := 2, status := PENDING, ack := 0 } :
        ResourceSegment).ttl ≤ 3 ∧
     (({ from_ := 0, to_ := 1000, ttl := 2, status := PENDING, ack := 0 } :
        ResourceSegment).status = DOWNLOAD_FAILED →
      ({ from_ := 0, to_ := 1000, ttl := 2, status := PENDING, ack := 0 } :
        ResourceSegment).ttl = 0) ∧
     (∀ op s2, segStep { from_ := 0, to_ := 1000, ttl := 2, status := PENDING, ack := 0 }
        op = some s2 →
        s2.ttl ≤ ({ from_ := 0, to_ := 1000, ttl := 2, status := PENDING, ack := 0 } :
          ResourceSegment).ttl) ∧
     (∀ s2, ({ from_ := 0, to_ := 1000, ttl := 2, status := PENDING, ack := 0 } :
        ResourceSegment).CancelDownload = some s2 →
        ({ from_ := 0, to_ := 1000, ttl := 2, status := PENDING, ack := 0 } :
          ResourceSegment).status = DOWNLOADING ∧
        0 < ({ from_ := 0, to_ := 1000, ttl := 2, status := PENDING, ack := 0 } :
          ResourceSegment).ttl ∧
        s2.ttl + 1 = ({ from_ := 0, to_ := 1000, ttl := 2, status := PENDING, ack := 0 } :
          ResourceSegment).ttl ∧
        s2.status = (if s2.ttl = 0 then DOWNLOAD_FAILED else PENDING))) :=
  segment_lifecycle_invariants 0 1000 [.start, .cancel] _ (by rfl)

/-! ## `Split` (claims `C6` and `C9`) -/

/-- In-range `uint64` arithmetic: the Go midpoint
`firstHalf.from + (firstHalf.to-firstHalf.from)/2` is the plain natural
midpoint whenever `from ≤ to < 2^64`. -/
theorem split_middle_eq (s : ResourceSegment) (h1 : s.from_ ≤ s.to_)
    (h2 : s.to_ < U64) :
    add64 s.from_ (sub64 s.to_ s.from_ / 2) = s.from_ + (s.to_ - s.from_) / 2 := by
  rw [sub64_eq_sub s.to_ s.from_ h2 h1]
  unfold add64
  have hd : (s.to_ - s.from_) / 2 ≤ s.to_ - s.from_ := Nat.div_le_self _ _
  exact Nat.mod_eq_of_lt (by omega)

/-- Claim `C6`: `Split` truncates the original to `[from, mid)` with
`mid = from + (to - from)/2`, creates the `PENDING` sibling `[mid, to)`,
appends it to the owning resource's active list, and the two halves
partition the original interval (disjoint, union `[from, to)`). -/
theorem split_partitions_interval (s : ResourceSegment)
    (h1 : s.from_ ≤ s.to_) (h2 : s.to_ < U64) :
    s.Split.1.from_ = s.from_ ∧
    s.Split.1.to_ = s.from_ + (s.to_ - s.from_) / 2 ∧
    s.Split.2.from_ = s.from_ + (s.to_ - s.from_) / 2 ∧
    s.Split.2.to_ = s.to_ ∧
    s.Split.2.status = PENDING ∧
    (∀ x, (segCovers s.Split.1 x ∨ segCovers s.Split.2 x) ↔ segCovers s x) ∧
    (∀ x, ¬(segCovers s.Split.1 x ∧ segCovers s.Split.2 x)) ∧
    (∀ (r : Resource) (i : Nat), r._segments.get? i = some s →
      (r.splitSegmentAt i)._segments
        = r._segments.set i s.Split.1 ++ [s.Split.2]) := by
  have hmid := split_middle_eq s h1 h2
  have hd : (s.to_ - s.from_) / 2 ≤ s.to_ - s.from_ := Nat.div_le_self _ _
  refine ⟨rfl, hmid, hmid, rfl, rfl, ?_, ?_, ?_⟩
  · intro x
    show (s.from_ ≤ x ∧ x < add64 s.from_ (sub64 s.to_ s.from_ / 2)) ∨
        (add64 s.from_ (sub64 s.to_ s.from_ / 2) ≤ x ∧ x < s.to_) ↔
        s.from_ ≤ x ∧ x < s.to_
    rw [hmid]
    omega
  · intro x
    show ¬((s.from_ ≤ x ∧ x < add64 s.from_ (sub64 s.to_ s.from_ / 2)) ∧
        (add64 s.from_ (sub64 s.to_ s.from_ / 2) ≤ x ∧ x < s.to_))
    rw [hmid]
    omega
  · intro r i hget
    unfold Resource.splitSegmentAt
    rw [hget]

/-- Witness for `C6` on the segment `[0, 10)` of a one-segment
resource. -/
theorem split_partitions_interval_witness :
    (initSeg 0 10).Split.1.from_ = 0 ∧
    (initSeg 0 10).Split.1.to_ = 0 + (10 - 0) / 2 ∧
    (initSeg 0 10).Split.2.from_ = 0 + (10 - 0) / 2 ∧
    (initSeg 0 10).Split.2.to_ = 10 ∧
    (initSeg 0 10).Split.2.status = PENDING ∧
    (∀ x, (segCovers (initSeg 0 10).Split.1 x ∨ segCovers (initSeg 0 10).Split.2 x)
        ↔ segCovers (initSeg 0 10) x) ∧
    (∀ x, ¬(segCovers (initSeg 0 10).Split.1 x ∧ segCovers (initSeg 0 10).Split.2 x)) ∧
    (∀ (r : Resource) (i : Nat), r._segments.get? i = some (initSeg 0 10) →
      (r.splitSegmentAt i)._segments
        = r._segments.set i (initSeg 0 10).Split.1 ++ [(initSeg 0 10).Split.2]) :=
  split_partitions_interval (initSeg 0 10) (by decide) (by decide)

/-- Claim `C9`: the sibling produced by `Split` always starts with a fresh
retry budget `ttl = 3`, and `Split` leaves the original segment's `ttl`
(and its `from`, `status`, `ack`) untouched — only `to` moves. -/
theorem split_gives_sibling_fresh_ttl (s : ResourceSegment) :
    s.Split.2.ttl = 3 ∧
    s.Split.1.ttl = s.ttl ∧
    s.Split.1.status = s.status ∧
    s.Split.1.from_ = s.from_ ∧
    s.Split.1.ack = s.ack :=
  ⟨rfl, rfl, rfl, rfl, rfl⟩

/-- Closed form of the scanning loop. -/
theorem statusLoop_eq (l : List ResourceSegment) (ap ad : Bool) :
    statusLoop l ap ad =
      if l.any (fun s => s.status == DOWNLOADING) then DOWNLOADING
      else if (ap && l.all (fun s => s.status == PENDING))
              && !(ad && l.all (fun s => s.status == DOWNLOADED)) then PENDING
      else if (ad && l.all (fun s => s.status == DOWNLOADED))
              && !(ap && l.all (fun s => s.status == PENDING)) then DOWNLOADED
      else DOWNLOAD_FAILED := by
  induction l generalizing ap ad with
  | nil => simp [statusLoop]
  | cons seg rest ih =>
    cases hs : seg.status <;>
      simp [statusLoop, hs, ih, Bool.and_assoc, Bool.and_comm, Bool.and_left_comm]

/-- Claim `C4` as stated is false on a resource with no segments: there
`∀ s ∈ _segments, s.status = PENDING` holds vacuously, yet `Status()`
returns `DOWNLOAD_FAILED`, not `PENDING`.  Such a resource is reachable:
`SliceSegments` on a zero-length range-accepting resource returns the
empty list (and `FinishDownload` empties `_segments` of any completed
resource). -/
theorem status_claim_fails_on_segmentless_resource :
    (∀ s ∈ (mkResource 0 true)._segments, s.status = PENDING) ∧
    (mkResource 0 true).Status ≠ PENDING ∧
    (mkResource 0 true).Status = DOWNLOAD_FAILED ∧
    (mkResource 0 true).SliceSegments 100 = [] := by
  refine ⟨?_, by decide, by decide, by rfl⟩
  intro s hs
  simp [mkResource] at hs

/-- Claim `C4` amended: for every resource with at least one segment,
`Status()` returns `PENDING` when all segments are `PENDING`,
`DOWNLOADING` when some segment is `DOWNLOADING`, `DOWNLOADED` when all
segments are `DOWNLOADED`, and `DOWNLOAD_FAILED` in every remaining case
— in particular on a mix of `PENDING` and `DOWNLOADED` segments with
none `DOWNLOADING`. -/
theorem resource_status_cases (r : Resource) (hne : r._segments ≠ []) :
    ((∀ s ∈ r._segments, s.status = PENDING) → r.Status = PENDING) ∧
    ((∃ s ∈ r._segments, s.status = DOWNLOADING) → r.Status = DOWNLOADING) ∧
    ((∀ s ∈ r._segments, s.status = DOWNLOADED) → r.Status = DOWNLOADED) ∧
    ((∀ s ∈ r._segments, s.status ≠ DOWNLOADING) →
      (¬ ∀ s ∈ r._segments, s.status = PENDING) →
      (¬ ∀ s ∈ r._segments, s.status = DOWNLOADED) →
      r.Status = DOWNLOAD_FAILED) := by
  cases hl : r._segments with
  | nil => exact absurd hl hne
  | cons s0 rest =>
    have hst : r.Status = statusLoop (s0 :: rest) true true := by
      rw [Resource.Status, hl]
    rw [statusLoop_eq] at hst
    refine ⟨?_, ?_, ?_, ?_⟩
    · intro hp
      have hany : ((s0 :: rest).any fun s => s.status == DOWNLOADING) = false := by
        simp only [List.any_eq_false]
        intro s hs
        simp [hp s hs]
      have hallp : ((s0 :: rest).all fun s => s.status == PENDING) = true := by
        simp only [List.all_eq_true]
        intro s hs
        simp [hp s hs]
      have halld : ((s0 :: rest).all fun s => s.status == DOWNLOADED) = false := by
        simp only [List.all_cons, Bool.and_eq_false_iff]
        left
        simp [hp s0 (List.mem_cons_self s0 rest)]
      rw [hany, hallp, halld] at hst
      simpa using hst
    · intro hd
      have hany : ((s0 :: rest).any fun s => s.status == DOWNLOADING) = true := by
        simp only [List.any_eq_true]
        obtain ⟨s, hs, hss⟩ := hd
        exact ⟨s, hs, by simp [hss]⟩
      rw [hany] at hst
      simpa using hst
    · intro hp
      have hany : ((s0 :: rest).any fun s => s.status == DOWNLOADING) = false := by
        simp only [List.any_eq_false]
        intro s hs
        simp [hp s hs]
      have halld : ((s0 :: rest).all fun s => s.status == DOWNLOADED) = true := by
        simp only [List.all_eq_true]
        intro s hs
        simp [hp s hs]
      have hallp : ((s0 :: rest).all fun s => s.status == PENDING) = false := by
        simp only [List.all_cons, Bool.and_eq_false_iff]
        left
        simp [hp s0 (List.mem_cons_self s0 rest)]
      rw [hany, hallp, halld] at hst
      simpa using hst
    · intro hnd hnp hnall
      have hany : ((s0 :: rest).any fun s => s.status == DOWNLOADING) = false := by
        simp only [List.any_eq_false]
        intro s hs
        simp [hnd s hs]
      have hallp : ((s0 :: rest).all fun s => s.status == PENDING) = false := by
        rw [Bool.eq_false_iff]
        intro hcontra
        apply hnp
        intro s hs
        have := (List.all_eq_true.mp hcontra) s hs
        simpa using this
      have halld : ((s0 :: rest).all fun s => s.status == DOWNLOADED) = false := by
        rw [Bool.eq_false_iff]
        intro hcontra
        apply hnall
        intro s hs
        have := (List.all_eq_true.mp hcontra) s hs
        simpa using this
      rw [hany, hallp, halld] at hst
      simpa using hst

theorem resource_status_cases_witness :
    ((∀ s ∈ mixedResource._segments, s.status = PENDING) →
      mixedResource.Status = PENDING) ∧
    ((∃ s ∈ mixedResource._segments, s.status = DOWNLOADING) →
      mixedResource.Status = DOWNLOADING) ∧
    ((∀ s ∈ mixedResource._segments, s.status = DOWNLOADED) →
      mixedResource.Status = DOWNLOADED) ∧
    ((∀ s ∈ mixedResource._segments, s.status ≠ DOWNLOADING) →
      (¬ ∀ s ∈ mixedResource._segments, s.status = PENDING) →
      (¬ ∀ s ∈ mixedResource._segments, s.status = DOWNLOADED) →
      mixedResource.Status = DOWNLOAD_FAILED) :=
  resource_status_cases mixedResource (by simp [mixedResource])

/-- Claim `C8`: a resource whose active segment list is empty reports
`DOWNLOAD_FAILED` — both flags of the scan are vacuously true, the code
then falls through both guarded returns — and in particular finishing
the last `DOWNLOADING` segment empties the active list and flips the
report to `DOWNLOAD_FAILED` rather than `DOWNLOADED`. -/
theorem empty_active_set_reports_failed (r : Resource)
    (h : r._segments = []) :
    r.Status = DOWNLOAD_FAILED ∧
    (∀ (r0 : Resource) (s : ResourceSegment),
      r0._segments = [s] → s.status = DOWNLOADING →
      ∃ r2, r0.finishSegmentAt 0 = some r2 ∧
        r2._segments = [] ∧ r2.Status = DOWNLOAD_FAILED) := by
  constructor
  · rw [Resource.Status, h]
    rfl
  · intro r0 s h1 h2
    refine ⟨{ r0 with
                _segments := [],
                _writtenSegments := r0._writtenSegments
                  ++ [{ s with status := DOWNLOADED }] }, ?_, rfl, rfl⟩
    unfold Resource.finishSegmentAt
    rw [h1]
    simp [ResourceSegment.FinishDownload, h2, List.eraseIdx]

/-- Witness for `C8`: the zero-length resource (no segments at all). -/
theorem empty_active_set_reports_failed_witness :
    (mkResource 0 true).Status = DOWNLOAD_FAILED ∧
    (∀ (r0 : Resource) (s : ResourceSegment),
      r0._segments = [s] → s.status = DOWNLOADING →
      ∃ r2, r0.finishSegmentAt 0 = some r2 ∧
        r2._segments = [] ∧ r2.Status = DOWNLOAD_FAILED) :=
  empty_active_set_reports_failed (mkResource 0 true) (by rfl)

/-- Claim `C1`: for the resource of the repository's own `TestDownloadResources`
(`contentLength = 1000`, `isAcceptRange = true`, chunk size `100`), the
claim and the test expect ten contiguous segments
`[0,100), …, [900,1000)`.  The code instead advances the loop index by
the segment's *end offset* (`idx += maxChunkSize`) and produces four
segments `[0,100), [100,200), [300,400), [700,800)` that neither are
contiguous nor cover the range: byte 250 belongs to no segment. -/
theorem sliceSegments_test_input_produces_four_gapped_segments :
    ((mkResource 1000 true).SliceSegments 100).map (fun s => (s.from_, s.to_))
      = [(0, 100), (100, 200), (300, 400), (700, 800)] ∧
    ((mkResource 1000 true).SliceSegments 100).length = 4 ∧
    (((mkResource 1000 true).SliceSegments 100).all
        (fun s => decide (¬ segCovers s 250))) = true := by
  refine ⟨by rfl, by rfl, by decide⟩

/-! ## Dissection of `Download` -/

theorem StartDownload_some (s s1 : ResourceSegment)
    (h : s.StartDownload = some s1) :
    s.status = PENDING ∧ s.ttl ≠ 0 ∧ s1 = { s with status := DOWNLOADING } := by
  simp only [ResourceSegment.StartDownload] at h
  split at h
  · exact absurd h (by simp)
  · split at h
    · exact absurd h (by simp)
    · rename_i h1 h2
      cases h
      exact ⟨not_not.mp h1, h2, rfl⟩

theorem CancelDownload_of_downloading (s : ResourceSegment)
    (h1 : s.status = DOWNLOADING) (h2 : s.ttl ≠ 0) :
    s.CancelDownload = some (cancelledState s) := by
  simp [ResourceSegment.CancelDownload, h1, h2, cancelledState]

theorem FinishDownload_of_downloading (s : ResourceSegment)
    (h1 : s.status = DOWNLOADING) :
    s.FinishDownload = some { s with status := DOWNLOADED } := by
  simp [ResourceSegment.FinishDownload, h1]

/-- Complete case analysis of a non-panicking `Download` call: exactly
one of the four result paths applies, and each fixes the result value,
the lifecycle call sequence and the final segment state. -/
theorem download_dissect (seg : ResourceSegment) (input : DownloadInput)
    (r : DownloadResult) (s2 : ResourceSegment) (calls : List LifeCall)
    (h : Downloader.Download seg input = some (r, s2, calls)) :
    seg.status = PENDING ∧ seg.ttl ≠ 0 ∧
    ((input.clientError = true ∧
        r = .CLIENT_RETURNED_ERROR ∧ calls = [.start, .cancel] ∧
        s2 = cancelledState { seg with status := DOWNLOADING }) ∨
     (input.clientError = false ∧
        (input.statusCode ≠ 200 ∧ input.statusCode ≠ 206) ∧
        r = .STATUS_CODE_NOT_2XX ∧ calls = [.start, .cancel] ∧
        s2 = cancelledState { seg with status := DOWNLOADING }) ∨
     (input.clientError = false ∧
        (input.statusCode = 200 ∨ input.statusCode = 206) ∧
        (downloadLoop seg.to_ seg.from_ input.body).2 ≠ .readErr ∧
        r = .READ_SUCCESS ∧ calls = [.start, .finish] ∧
        s2 = { seg with status := DOWNLOADED,
                        ack := (downloadLoop seg.to_ seg.from_ input.body).1 }) ∨
     (input.clientError = false ∧
        (input.statusCode = 200 ∨ input.statusCode = 206) ∧
        (downloadLoop seg.to_ seg.from_ input.body).2 = .readErr ∧
        r = .READER_RETURNED_ERROR ∧ calls = [.start, .cancel] ∧
        s2 = cancelledState { seg with status := DOWNLOADING,
                                       ack := (downloadLoop seg.to_ seg.from_ input.body).1 })) := by
  cases hsd : seg.StartDownload with
  | none => simp [Downloader.Download, hsd] at h
  | some s1 =>
    obtain ⟨hstat, httl, hs1⟩ := StartDownload_some seg s1 hsd
    subst hs1
    refine ⟨hstat, httl, ?_⟩
    simp only [Downloader.Download, hsd] at h
    by_cases hce : input.clientError
    · rw [if_pos hce] at h
      rw [CancelDownload_of_downloading _ rfl (by simpa using httl)] at h
      simp only [Option.some.injEq, Prod.mk.injEq] at h
      obtain ⟨hr, hs2, hcalls⟩ := h
      exact Or.inl ⟨hce, hr.symm, hcalls.symm, hs2.symm⟩
    · rw [if_neg hce] at h
      by_cases hsc : input.statusCode ≠ 200 ∧ input.statusCode ≠ 206
      · rw [if_pos hsc] at h
        rw [CancelDownload_of_downloading _ rfl (by simpa using httl)] at h
        simp only [Option.some.injEq, Prod.mk.injEq] at h
        obtain ⟨hr, hs2, hcalls⟩ := h
        exact Or.inr (Or.inl ⟨by simpa using hce, hsc, hr.symm, hcalls.symm, hs2.symm⟩)
      · rw [if_neg hsc] at h
        have hsc2 : input.statusCode = 200 ∨ input.statusCode = 206 := by
          by_contra hcon
          push_neg at hcon
          exact hsc ⟨hcon.1, hcon.2⟩
        cases hexit : (downloadLoop ({ seg with status := DOWNLOADING } :
            ResourceSegment).to_ ({ seg with status := DOWNLOADING} :
            ResourceSegment).from_ input.body).2 with
        | ackReached =>
          rw [hexit] at h
          rw [FinishDownload_of_downloading _ rfl] at h
          simp only [Option.some.injEq, Prod.mk.injEq] at h
          obtain ⟨hr, hs2, hcalls⟩ := h
          refine Or.inr (Or.inr (Or.inl ⟨by simpa using hce, hsc2, ?_, hr.symm,
            hcalls.symm, hs2.symm⟩))
          decide
        | eofStream =>
          rw [hexit] at h
          rw [FinishDownload_of_downloading _ rfl] at h
          simp only [Option.some.injEq, Prod.mk.injEq] at h
          obtain ⟨hr, hs2, hcalls⟩ := h
          refine Or.inr (Or.inr (Or.inl ⟨by simpa using hce, hsc2, ?_, hr.symm,
            hcalls.symm, hs2.symm⟩))
          decide
        | readErr =>
          rw [hexit] at h
          rw [CancelDownload_of_downloading _ rfl (by simpa using httl)] at h
          simp only [Option.some.injEq, Prod.mk.injEq] at h
          obtain ⟨hr, hs2, hcalls⟩ := h
          exact Or.inr (Or.inr (Or.inr ⟨by simpa using hce, hsc2, rfl,
            hr.symm, hcalls.symm, hs2.symm⟩))

/-- When the streaming loop exits because `ack >= to`, the final `ack`
is indeed at least `to` — the loop stops at the first such iteration. -/
theorem downloadLoop_ackReached_bound (to_ ack : Nat) (evs : List (Nat × ReadErr))
    (h : (downloadLoop to_ ack evs).2 = .ackReached) :
    to_ ≤ (downloadLoop to_ ack evs).1 := by
  induction evs generalizing ack with
  | nil =>
    by_cases hle : to_ ≤ ack
    · simp [downloadLoop, hle]
    · simp [downloadLoop, hle] at h
  | cons ev rest ih =>
    obtain ⟨n, e⟩ := ev
    by_cases hle : to_ ≤ add64 ack n
    · simp [downloadLoop, hle]
    · cases e with
      | eofErr => simp [downloadLoop, hle] at h
      | otherErr => simp [downloadLoop, hle] at h
      | noErr =>
        simp only [downloadLoop, if_neg hle] at h ⊢
        exact ih (add64 ack n) h

/-- Claim `C2`: a non-panicking `Download` first calls `StartDownload`; it
returns `CLIENT_RETURNED_ERROR` exactly when the client errored,
`STATUS_CODE_NOT_2XX` exactly when the client succeeded with a status
neither 200 nor 206, `READ_SUCCESS` exactly when streaming ended by
`ack ≥ to` or end-of-stream (then via `FinishDownload`), and
`READER_RETURNED_ERROR` exactly when the reader failed otherwise (then
via `CancelDownload`); no other result arises, every non-success path
ends in `CancelDownload` (consuming one `ttl`), and an `ack ≥ to` exit
really reached `to`. -/
theorem download_control_flow (seg : ResourceSegment) (input : DownloadInput)
    (r : DownloadResult) (s2 : ResourceSegment) (calls : List LifeCall)
    (h : Downloader.Download seg input = some (r, s2, calls)) :
    calls.head? = some LifeCall.start ∧
    (r = .CLIENT_RETURNED_ERROR ↔ input.clientError = true) ∧
    (r = .STATUS_CODE_NOT_2XX ↔
      input.clientError = false ∧ input.statusCode ≠ 200 ∧ input.statusCode ≠ 206) ∧
    (r = .READ_SUCCESS ↔
      input.clientError = false ∧
      (input.statusCode = 200 ∨ input.statusCode = 206) ∧
      (downloadLoop seg.to_ seg.from_ input.body).2 ≠ .readErr) ∧
    (r = .READER_RETURNED_ERROR ↔
      input.clientError = false ∧
      (input.statusCode = 200 ∨ input.statusCode = 206) ∧
      (downloadLoop seg.to_ seg.from_ input.body).2 = .readErr) ∧
    (r = .READ_SUCCESS ↔ calls = [.start, .finish]) ∧
    (r ≠ .READ_SUCCESS → calls = [.start, .cancel]) ∧
    (r = .READ_SUCCESS → s2.status = DOWNLOADED) ∧
    (r ≠ .READ_SUCCESS → s2.status ≠ DOWNLOADED ∧ s2.ttl + 1 = seg.ttl) ∧
    ((downloadLoop seg.to_ seg.from_ input.body).2 = .ackReached →
      seg.to_ ≤ (downloadLoop seg.to_ seg.from_ input.body).1) := by
  obtain ⟨hstat, httl, hcase⟩ := download_dissect seg input r s2 calls h
  have hbound := downloadLoop_ackReached_bound seg.to_ seg.from_ input.body
  rcases hcase with ⟨hce, hr, hcalls, hs2⟩ | ⟨hce, hsc, hr, hcalls, hs2⟩ |
    ⟨hce, hsc, hexit, hr, hcalls, hs2⟩ | ⟨hce, hsc, hexit, hr, hcalls, hs2⟩ <;>
    subst hr <;> subst hcalls <;> subst hs2
  · refine ⟨rfl, by simp [hce], by simp [hce], by simp [hce], by simp [hce],
      by simp, by simp [cancelledState], ?_, ?_, hbound⟩
    · intro hcon; cases hcon
    · intro _
      constructor
      · simp only [cancelledState]
        split <;> simp
      · simp only [cancelledState]
        omega
  · refine ⟨rfl, by simp [hce], by simp [hce, hsc], ?_, ?_,
      by simp, by simp [cancelledState], ?_, ?_, hbound⟩
    · simp [hsc.1, hsc.2]
    · simp [hsc.1, hsc.2]
    · intro hcon; cases hcon
    · intro _
      constructor
      · simp only [cancelledState]
        split <;> simp
      · simp only [cancelledState]
        omega
  · refine ⟨rfl, by simp [hce], ?_, by simp [hce, hsc, hexit], ?_,
      by simp, by simp, by intro _; rfl, ?_, hbound⟩
    · constructor
      · intro hcon; cases hcon
      · rintro ⟨-, hn1, hn2⟩
        rcases hsc with hsc | hsc
        · exact absurd hsc hn1
        · exact absurd hsc hn2
    · constructor
      · intro hcon; cases hcon
      · rintro ⟨-, -, hcon⟩
        exact absurd hcon hexit
    · intro hcon
      exact absurd rfl hcon
  · refine ⟨rfl, by simp [hce], ?_, by simp [hexit], by simp [hce, hsc, hexit],
      by simp, by simp, ?_, ?_, hbound⟩
    · constructor
      · intro hcon; cases hcon
      · rintro ⟨-, hn1, hn2⟩
        rcases hsc with hsc | hsc
        · exact absurd hsc hn1
        · exact absurd hsc hn2
    · intro hcon; cases hcon
    · intro _
      constructor
      · simp only [cancelledState]
        split <;> simp
      · simp only [cancelledState]
        omega

/-- Witness for `C2`: on `sampleSeg`/`sampleInput`, `Download` succeeds
with `READ_SUCCESS` after `[start, finish]`. -/
theorem download_control_flow_witness :
    ([LifeCall.start, LifeCall.finish].head? = some LifeCall.start) ∧
    (DownloadResult.READ_SUCCESS = .CLIENT_RETURNED_ERROR ↔
      sampleInput.clientError = true) ∧
    (DownloadResult.READ_SUCCESS = .STATUS_CODE_NOT_2XX ↔
      sampleInput.clientError = false ∧
      sampleInput.statusCode ≠ 200 ∧ sampleInput.statusCode ≠ 206) ∧
    (DownloadResult.READ_SUCCESS = .READ_SUCCESS ↔
      sampleInput.clientError = false ∧
      (sampleInput.statusCode = 200 ∨ sampleInput.statusCode = 206) ∧
      (downloadLoop sampleSeg.to_ sampleSeg.from_ sampleInput.body).2 ≠ .readErr) ∧
    (DownloadResult.READ_SUCCESS = .READER_RETURNED_ERROR ↔
      sampleInput.clientError = false ∧
      (sampleInput.statusCode = 200 ∨ sampleInput.statusCode = 206) ∧
      (downloadLoop sampleSeg.to_ sampleSeg.from_ sampleInput.body).2 = .readErr) ∧
    (DownloadResult.READ_SUCCESS = .READ_SUCCESS ↔
      [LifeCall.start, LifeCall.finish] = [LifeCall.start, LifeCall.finish]) ∧
    (DownloadResult.READ_SUCCESS ≠ .READ_SUCCESS →
      [LifeCall.start, LifeCall.finish] = [LifeCall.start, LifeCall.cancel]) ∧
    (DownloadResult.READ_SUCCESS = .READ_SUCCESS → sampleFinal.status = DOWNLOADED) ∧
    (DownloadResult.READ_SUCCESS ≠ .READ_SUCCESS →
      sampleFinal.status ≠ DOWNLOADED ∧ sampleFinal.ttl + 1 = sampleSeg.ttl) ∧
    ((downloadLoop sampleSeg.to_ sampleSeg.from_ sampleInput.body).2 = .ackReached →
      sampleSeg.to_ ≤ (downloadLoop sampleSeg.to_ sampleSeg.from_ sampleInput.body).1) :=
  download_control_flow sampleSeg sampleInput .READ_SUCCESS sampleFinal
    [.start, .finish] (by rfl)

/-- The handler always returns the worker once, and requeues exactly
when `ttl` is positive. -/
theorem dispatchOnComplete_count (r : DownloadResult) (t : Nat) :
    (dispatchOnComplete r t).count QueueOp.returnWorker = 1 ∧
    (dispatchOnComplete r t).count QueueOp.requeueSegment
      = if r ≠ .READ_SUCCESS ∧ 0 < t then 1 else 0 := by
  unfold dispatchOnComplete
  by_cases h1 : r = .READ_SUCCESS <;> by_cases h2 : 0 < t <;>
    simp [h1, h2, List.count_cons, List.count_nil, List.count_append]

/-- Claim `C3`: after a fetch completes with any result other than
`READ_SUCCESS`, the dispatcher's completion handler re-enqueues the
segment into the pending queue exactly when its `ttl` is still
positive (otherwise the segment is `DOWNLOAD_FAILED` and abandoned),
and in every case — success, retry or abandonment — it returns the
worker to the idle queue exactly once. -/
theorem retry_requeue_policy (seg : ResourceSegment) (input : DownloadInput)
    (r : DownloadResult) (s2 : ResourceSegment) (calls : List LifeCall)
    (h : Downloader.Download seg input = some (r, s2, calls))
    (hr : r ≠ .READ_SUCCESS) :
    ((dispatchOnComplete r s2.ttl).count QueueOp.requeueSegment
        = if 0 < s2.ttl then 1 else 0) ∧
    (0 < s2.ttl → s2.status = PENDING) ∧
    (s2.ttl = 0 → s2.status = DOWNLOAD_FAILED) ∧
    (dispatchOnComplete r s2.ttl).count QueueOp.returnWorker = 1 ∧
    (∀ (r2 : DownloadResult) (t : Nat),
      (dispatchOnComplete r2 t).count QueueOp.returnWorker = 1) := by
  obtain ⟨hcount1, hcount2⟩ := dispatchOnComplete_count r s2.ttl
  refine ⟨by rw [hcount2]; simp [hr], ?_, ?_, hcount1,
    fun r2 t => (dispatchOnComplete_count r2 t).1⟩ <;>
  · obtain ⟨-, -, hcase⟩ := download_dissect seg input r s2 calls h
    rcases hcase with ⟨-, hr2, -, hs2⟩ | ⟨-, -, hr2, -, hs2⟩ |
      ⟨-, -, -, hr2, -, -⟩ | ⟨-, -, -, hr2, -, hs2⟩ <;>
      first
      | (exact absurd hr2 hr)
      | (subst hs2
         simp only [cancelledState]
         intro httl
         split <;> simp_all)

/-- Witness for `C3`: a client error on the fresh `[0, 5)` segment
leaves `ttl = 2 > 0`, so the segment is requeued and the worker
returned once. -/
theorem retry_requeue_policy_witness :
    ((dispatchOnComplete .CLIENT_RETURNED_ERROR
        (cancelledState { sampleSeg with status := DOWNLOADING }).ttl).count
        QueueOp.requeueSegment
      = if 0 < (cancelledState { sampleSeg with status := DOWNLOADING }).ttl
        then 1 else 0) ∧
    (0 < (cancelledState { sampleSeg with status := DOWNLOADING }).ttl →
      (cancelledState { sampleSeg with status := DOWNLOADING }).status = PENDING) ∧
    ((cancelledState { sampleSeg with status := DOWNLOADING }).ttl = 0 →
      (cancelledState { sampleSeg with status := DOWNLOADING }).status
        = DOWNLOAD_FAILED) ∧
    (dispatchOnComplete .CLIENT_RETURNED_ERROR
        (cancelledState { sampleSeg with status := DOWNLOADING }).ttl).count
        QueueOp.returnWorker = 1 ∧
    (∀ (r2 : DownloadResult) (t : Nat),
      (dispatchOnComplete r2 t).count QueueOp.returnWorker = 1) :=
  retry_requeue_policy sampleSeg { clientError := true, statusCode := 0, body := [] }
    .CLIENT_RETURNED_ERROR (cancelledState { sampleSeg with status := DOWNLOADING })
    [.start, .cancel] (by rfl) (by decide)

/-- Claim `C7`: the GET request carries exactly one `Range` header, its value
is `"bytes=<from>-<to-2>"` with `uint64` subtraction, and for every
segment with `to ≥ 2` that upper bound is literally `to - 2`. -/
theorem range_header_unique_and_value (s : ResourceSegment) (h : s.to_ < U64) :
    (downloadRequestHeaders s).length = 1 ∧
    ((downloadRequestHeaders s).filter (fun p => p.1 == "Range"))
      = [("Range", "bytes=" ++ toString s.from_ ++ "-" ++ toString (sub64 s.to_ 2))] ∧
    (2 ≤ s.to_ → sub64 s.to_ 2 = s.to_ - 2) := by
  refine ⟨rfl, ?_, fun h2 => sub64_eq_sub s.to_ 2 h h2⟩
  simp [downloadRequestHeaders, rangeHeaderValue]

/-- Witness for `C7` on the segment `[0, 100)`: the single header is
`Range: bytes=0-98`. -/
theorem range_header_unique_and_value_witness :
    (downloadRequestHeaders (initSeg 0 100)).length = 1 ∧
    ((downloadRequestHeaders (initSeg 0 100)).filter (fun p => p.1 == "Range"))
      = [("Range", "bytes=" ++ toString (initSeg 0 100).from_ ++ "-"
          ++ toString (sub64 (initSeg 0 100).to_ 2))] ∧
    (2 ≤ (initSeg 0 100).to_ →
      sub64 (initSeg 0 100).to_ 2 = (initSeg 0 100).to_ - 2) :=
  range_header_unique_and_value (initSeg 0 100) (by decide)

/-- Claim `C10`: for a segment with `to < 2` the upper bound `to - 2`
underflows modulo `2^64`: the header value becomes
`bytes=<from>-<2^64-2+to>` — for `to = 1` literally
`bytes=0-18446744073709551615` — instead of describing an empty or
one-byte range. -/
theorem range_header_underflow_below_two (s : ResourceSegment) (h : s.to_ < 2) :
    sub64 s.to_ 2 = U64 - 2 + s.to_ ∧
    U64 - 2 ≤ sub64 s.to_ 2 ∧
    s.to_ < sub64 s.to_ 2 ∧
    rangeHeaderValue s.from_ s.to_
      = "bytes=" ++ toString s.from_ ++ "-" ++ toString (U64 - 2 + s.to_) ∧
    rangeHeaderValue 0 1 = "bytes=0-18446744073709551615" := by
  have h2 : (2 : Nat) < U64 := by decide
  have h1 : sub64 s.to_ 2 = s.to_ + U64 - 2 := sub64_eq_wrap s.to_ 2 h2 (by omega)
  have hU : (1000 : Nat) < U64 := by decide
  refine ⟨by omega, by omega, by omega, ?_, by decide⟩
  unfold rangeHeaderValue
  rw [show sub64 s.to_ 2 = U64 - 2 + s.to_ by omega]

/-- Witness for `C10` at the segment `[0, 1)`: the header value is the
wrapped `bytes=0-18446744073709551615`. -/
theorem range_header_underflow_below_two_witness :
    sub64 (initSeg 0 1).to_ 2 = U64 - 2 + (initSeg 0 1).to_ ∧
    U64 - 2 ≤ sub64 (initSeg 0 1).to_ 2 ∧
    (initSeg 0 1).to_ < sub64 (initSeg 0 1).to_ 2 ∧
    rangeHeaderValue (initSeg 0 1).from_ (initSeg 0 1).to_
      = "bytes=" ++ toString (initSeg 0 1).from_ ++ "-"
        ++ toString (U64 - 2 + (initSeg 0 1).to_) ∧
    rangeHeaderValue 0 1 = "bytes=0-18446744073709551615" :=
  range_header_underflow_below_two (initSeg 0 1) (by decide)

end Project5296
